import Mathlib

/-!
Verification development for the Resume Roaster frontend client
(`src/lib/api.ts`, `src/pages/Generate.tsx`, `src/components/UploadSection.tsx`).

The embedding models:
* the `JobStatus` record and its status enumeration (api.ts);
* the sequential polling loop `pollJobStatus` (api.ts lines 127-162), both its
  value-level behaviour (which statuses it observes, when it resolves or
  rejects, how often it invokes the progress callback) and its timing
  behaviour (a read window model: each status read occupies a time interval,
  and the recursive `setTimeout` schedules the next read only after the
  previous one returned);
* the interval-driven polling loop of the Generate page
  (`setInterval(pollStatus, 2000)`, Generate.tsx lines 29-85), as a
  tick-indexed event model in which the interval timer fires every 2000 ms
  until the interval is cleared (by a terminal observation, a read error, or
  the effect-cleanup cancellation);
* the client-side file validation of UploadSection (`handleFileInput` /
  `handleDrop`), the upload request construction of `uploadResume`, the
  background choice list, `getVideoUrl`, and `getAvailableBackgrounds`.
-/

/-- Status enumeration of a job, from the `JobStatus` interface in api.ts. -/
inductive StatusTag
  | pending
  | analyzing
  | roasting
  | generating
  | completed
  | failed
deriving DecidableEq

/-- JobStatus record, from the `JobStatus` interface in api.ts.  Optional
fields of the TypeScript interface become `Option`. -/
structure JobStatus where
  job_id : String
  status : StatusTag
  progress : Int
  message : String
  video_url : Option String := none
  roast_text : Option String := none
  score : Option Int := none
  error : Option String := none
deriving DecidableEq

/-- JavaScript `a || b` on an optional string `a`: the fallback `b` is taken
when `a` is absent (undefined/null) or the empty string (falsy). -/
def jsOrStr (a : Option String) (b : String) : String :=
  match a with
  | some s => if s = "" then b else s
  | none => b

/-- Outcome of one execution of the polling loop, over a finite list of
modelled reads: the promise of `pollJobStatus` resolves with a status,
rejects with an error message, or (in the model) the loop exhausts the
supplied reads without having observed a terminal status — meaning the real
loop would still be polling. -/
inductive PollOutcome
  | resolved (s : JobStatus)
  | rejected (msg : String)
  | exhausted
deriving DecidableEq

/-- One modelled status read: `getJobStatus` either returns a status or
throws (transport/read failure), carrying the error message. -/
abbrev ReadResult := Except String JobStatus

/-- Value-level model of `pollJobStatus` (api.ts lines 127-162), run against
a finite list of read results.  Mirrors `checkStatus`: the read may throw
(rejecting the promise with that error); otherwise the progress callback is
invoked when one was supplied, then `completed` resolves, `failed` rejects
with `status.error || "Job failed"`, and any other status schedules the next
`checkStatus`.  Returns the outcome, the list of statuses passed to the
progress callback, and the number of status reads issued. -/
def pollJobStatusRun (hasCb : Bool) :
    List ReadResult → PollOutcome × List JobStatus × Nat
  | [] => (.exhausted, [], 0)
  | .error e :: _ => (.rejected e, [], 1)
  | .ok s :: rest =>
    if s.status = .completed then
      (.resolved s, if hasCb then [s] else [], 1)
    else if s.status = .failed then
      (.rejected (jsOrStr s.error "Job failed"), if hasCb then [s] else [], 1)
    else
      ((pollJobStatusRun hasCb rest).1,
       (if hasCb then [s] else []) ++ (pollJobStatusRun hasCb rest).2.1,
       (pollJobStatusRun hasCb rest).2.2 + 1)

/-- Default polling interval of `pollJobStatus`, from its
`intervalMs: number = 2000` parameter (api.ts line 130). -/
def defaultIntervalMs : Nat := 2000

/-- Timing model of `pollJobStatus`: given the interval, the start time of
the first read, and the latency of each read, the list of (start, finish)
windows of the status reads.  The first `checkStatus` runs immediately; after
a read returns at time `t + l`, the next read is scheduled by
`setTimeout(checkStatus, intervalMs)` and so starts `intervalMs` later. -/
def readWindows (intervalMs : Nat) : Nat → List Nat → List (Nat × Nat)
  | _, [] => []
  | t, l :: ls => (t, t + l) :: readWindows intervalMs (t + l + intervalMs) ls

/-- Polling interval of the Generate page, from
`setInterval(pollStatus, 2000)` (Generate.tsx line 77). -/
def generatePollIntervalMs : Nat := 2000

/-- Test whether one observation of `pollStatus` in Generate.tsx clears the
polling interval: the `completed` and `failed` branches and the `catch`
branch all run `clearInterval(pollInterval)`; every other status leaves the
interval running. -/
def stopsLoop : ReadResult → Bool
  | .error _ => true
  | .ok s => s.status = StatusTag.completed || s.status = StatusTag.failed

/-- Whether the Generate page interval has been cleared by time `t`: either
the effect cleanup ran (`cancel ≤ t`), or some already-issued read (issue
time `issued[k]`, latency `lat k`, outcome `env k`) has returned by `t` with
an observation that clears the interval. -/
def intervalStopped (env : Nat → ReadResult) (lat : Nat → Nat)
    (cancel : Option Nat) (issued : List Nat) (t : Nat) : Bool :=
  (match cancel with | some c => decide (c ≤ t) | none => false)
  || (List.range issued.length).any fun k =>
      decide (issued.getD k 0 + lat k ≤ t) && stopsLoop (env k)

/-- Tick-indexed event model of the Generate.tsx polling loop
(lines 29-85): the issue times of the status reads after `j` interval ticks.
The initial `pollStatus()` call issues a read at time 0; the interval timer
fires at times `I, 2*I, ...` and each firing issues a new read — whether or
not an earlier read is still in flight — unless the interval has been
cleared by a returned terminal/error observation or by the cleanup
cancellation. -/
def genIssued (env : Nat → ReadResult) (lat : Nat → Nat)
    (cancel : Option Nat) (I : Nat) : Nat → List Nat
  | 0 => [0]
  | j + 1 =>
    if intervalStopped env lat cancel (genIssued env lat cancel I j)
        ((j + 1) * I) then
      genIssued env lat cancel I j
    else
      genIssued env lat cancel I j ++ [(j + 1) * I]

/-- Whether the `k`-th issued read of the Generate loop is still pending
(issued, not yet returned) at time `t`. -/
def pendingAt (issued : List Nat) (lat : Nat → Nat) (k t : Nat) : Bool :=
  decide (k < issued.length) && decide (issued.getD k 0 ≤ t)
    && decide (t < issued.getD k 0 + lat k)

/-- Sample non-terminal status used to exercise the models on concrete
runs. -/
def analyzingStatus : JobStatus :=
  { job_id := "job-1", status := .analyzing, progress := 25
    message := "Analyzing resume..." }

/-- Sample environment in which every status read returns the non-terminal
`analyzing` status. -/
def envAnalyzing : Nat → ReadResult := fun _ => .ok analyzingStatus

/-- File data relevant to the UploadSection validation handlers: name, MIME
type and size in bytes. -/
structure FileInfo where
  name : String
  type : String
  size : Nat
deriving DecidableEq

/-- Client-side validation applied by both `handleFileInput` and
`handleDrop` in UploadSection.tsx: the file is accepted (passed to
`onFileUpload`, enabling submission) exactly when its MIME type is
`application/pdf` or its name ends in `.pdf`; otherwise a validation toast
rejects it. -/
def acceptsFile (f : FileInfo) : Bool :=
  f.type = "application/pdf" || f.name.endsWith ".pdf"

/-- Size ceiling advertised by the UploadSection UI text
`Supported format: PDF (Max 10MB)`, in bytes. -/
def maxUploadBytes : Nat := 10 * 1024 * 1024

/-- An 11 MiB PDF: a well-formed PDF file whose size exceeds the advertised
10 MB ceiling. -/
def oversizedPdf : FileInfo :=
  { name := "resume.pdf", type := "application/pdf", size := 11 * 1024 * 1024 }

/-- Default background video of `uploadResume`, from its
`backgroundVideo: string = "subway_surfer"` parameter (api.ts line 38). -/
def defaultBackgroundVideo : String := "subway_surfer"

/-- Fixed set of background choices offered by the UploadSection selector
(UploadSection.tsx line 186). -/
def backgroundChoices : List String :=
  ["subway_surfer", "minecraft", "fortnite", "templerun", "satisfying"]

/-- Form data assembled by `uploadResume` (api.ts lines 38-46). -/
structure UploadForm where
  file : FileInfo
  background_video : String
deriving DecidableEq

/-- Request body built by `uploadResume`: the file and the
`background_video` field, which is the caller's argument when one was passed
and the default parameter value otherwise. -/
def uploadForm (file : FileInfo) (bg : Option String) : UploadForm :=
  { file := file, background_video := bg.getD defaultBackgroundVideo }

/-- API base URL, from
`import.meta.env.VITE_API_URL || "http://localhost:8000"` (api.ts line 5);
the environment variable may be unset (or empty, which `||` also treats as
absent). -/
def apiBaseUrl (envUrl : Option String) : String :=
  jsOrStr envUrl "http://localhost:8000"

/-- Model of `getVideoUrl` (api.ts lines 87-89): pure string interpolation
of the base URL, the fixed path segment and the job id. -/
def getVideoUrl (envUrl : Option String) (jobId : String) : String :=
  apiBaseUrl envUrl ++ "/api/video/" ++ jobId

/-- Response body of the backgrounds-listing endpoint as
`getAvailableBackgrounds` reads it: the `backgrounds` field may be absent. -/
structure BackgroundsBody where
  backgrounds : Option (List String)
deriving DecidableEq

/-- Model of `getAvailableBackgrounds` (api.ts lines 112-121): a non-ok
response throws; an ok response yields `data.backgrounds || []`, where a
present `backgrounds` array (even empty) is truthy and an absent field
falls back to the empty array. -/
def getAvailableBackgrounds (ok : Bool) (data : BackgroundsBody) :
    Except String (List String) :=
  if !ok then .error "Failed to get backgrounds"
  else .ok (data.backgrounds.getD [])

/-- Sample terminal success status used to exercise the models. -/
def completedStatus : JobStatus :=
  { job_id := "job-1", status := .completed, progress := 100
    message := "Your roast video is ready"
    video_url := some "/api/video/job-1" }

/-- Sample terminal failure status used to exercise the models. -/
def failedStatus : JobStatus :=
  { job_id := "job-1", status := .failed, progress := 60
    message := "Processing failed"
    error := some "Video rendering failed" }

/-- Consecutive read windows of `pollJobStatus` start exactly `intervalMs`
after the previous read finished. -/
theorem readWindows_chain_eq (intervalMs : Nat) :
    ∀ (t : Nat) (ls : List Nat),
      List.Chain' (fun a b => b.1 = a.2 + intervalMs)
        (readWindows intervalMs t ls) := by
  intro t ls
  induction ls generalizing t with
  | nil => simp [readWindows]
  | cons l ls ih =>
    cases ls with
    | nil => simp [readWindows]
    | cons l' ls' =>
      refine List.Chain'.cons ?_ (ih _)
      simp [readWindows]

/-- Prepending any run of non-terminal successful observations to the reads
leaves the loop polling: the outcome is that of the remaining reads, the
callback trace grows by the prepended statuses (when a callback is
supplied), and the read count grows by their number. -/
theorem pollRun_prepend_nonterminal (cb : Bool) (pre : List JobStatus)
    (xs : List ReadResult)
    (hpre : ∀ u ∈ pre,
      u.status ≠ StatusTag.completed ∧ u.status ≠ StatusTag.failed) :
    pollJobStatusRun cb (pre.map Except.ok ++ xs)
      = ((pollJobStatusRun cb xs).1,
         (if cb then pre else []) ++ (pollJobStatusRun cb xs).2.1,
         (pollJobStatusRun cb xs).2.2 + pre.length) := by
  induction pre with
  | nil => cases cb <;> simp
  | cons u pre ih =>
    have hu := hpre u (List.mem_cons_self u pre)
    have ih' := ih fun v hv => hpre v (List.mem_cons_of_mem u hv)
    simp only [List.map_cons, List.cons_append, pollJobStatusRun]
    rw [if_neg hu.1, if_neg hu.2]
    simp only [List.append_eq]
    rw [ih']
    cases cb <;> simp [Nat.add_assoc]

/-- C1: the claim states that the client polling loop never has more than
one status read pending at a time.  This holds for `pollJobStatus` in
api.ts, but the Generate page's own `setInterval`-driven loop violates it:
with every read returning a non-terminal status and a read latency of
3000 ms, reads are issued at times 0 and 2000, and at time 2500 both are
still pending. -/
theorem c1_generate_overlapping_polls_counterexample :
    genIssued envAnalyzing (fun _ => 3000) none generatePollIntervalMs 1
        = [0, 2000] ∧
    pendingAt (genIssued envAnalyzing (fun _ => 3000) none
        generatePollIntervalMs 1) (fun _ => 3000) 0 2500 = true ∧
    pendingAt (genIssued envAnalyzing (fun _ => 3000) none
        generatePollIntervalMs 1) (fun _ => 3000) 1 2500 = true := by
  decide

/-- C1 (amended): the `pollJobStatus` loop of api.ts issues each status
read only after the previous read has returned — its read windows never
overlap, for every interval and every sequence of read latencies — whereas
the interval-driven loop of Generate.tsx lacks this guarantee: two of its
reads can be pending at the same instant when a read's latency exceeds the
2000 ms interval. -/
theorem c1_pollJobStatus_no_overlap :
    (∀ (intervalMs t : Nat) (ls : List Nat),
      List.Chain' (fun a b => a.2 ≤ b.1) (readWindows intervalMs t ls)) ∧
    (pendingAt (genIssued envAnalyzing (fun _ => 3000) none
        generatePollIntervalMs 1) (fun _ => 3000) 0 2500 = true ∧
     pendingAt (genIssued envAnalyzing (fun _ => 3000) none
        generatePollIntervalMs 1) (fun _ => 3000) 1 2500 = true) := by
  constructor
  · intro intervalMs t ls
    exact (readWindows_chain_eq intervalMs t ls).imp fun a b h => by omega
  · exact ⟨by decide, by decide⟩

/-- C2: cancelling the Generate page's polling loop (the effect cleanup
runs `clearInterval` at time `c`) means no status read is ever issued at or
after time `c`: every issued read is the initial one at time 0 or was
issued strictly before the cancellation, for every environment, latency
assignment, interval and number of ticks. -/
theorem c2_generate_cancel_stops_reads (env : Nat → ReadResult)
    (lat : Nat → Nat) (c I : Nat) :
    ∀ j : Nat, (genIssued env lat (some c) I j).all
      (fun t => t == 0 || decide (t < c)) = true := by
  intro j
  induction j with
  | zero => simp [genIssued]
  | succ j ih =>
    simp only [genIssued]
    split
    · exact ih
    · rename_i h
      have hlt : (j + 1) * I < c := by
        by_contra hle
        have hcle : c ≤ (j + 1) * I := Nat.le_of_not_lt hle
        exact h (by simp [intervalStopped, hcle])
      simp [List.all_append, ih, hlt]

/-- C3: run against any prefix of non-terminal observations followed by a
terminal one, the polling loop resolves with the final status object on
`completed` and issues no further reads (the read count is exactly the
terminal observation's position plus one); on `failed` it rejects with the
job's error description, again issuing no further reads; and after a
non-terminal observation it keeps polling (the modelled run is exhausted
rather than settled). -/
theorem c3_poll_terminal_behaviour (cb : Bool) (pre : List JobStatus)
    (rest : List ReadResult) (s : JobStatus)
    (hpre : ∀ u ∈ pre,
      u.status ≠ StatusTag.completed ∧ u.status ≠ StatusTag.failed) :
    (s.status = StatusTag.completed →
      (pollJobStatusRun cb (pre.map Except.ok ++ Except.ok s :: rest)).1
          = PollOutcome.resolved s ∧
      (pollJobStatusRun cb (pre.map Except.ok ++ Except.ok s :: rest)).2.2
          = pre.length + 1)
    ∧ (∀ e : String, s.status = StatusTag.failed → s.error = some e →
        e ≠ "" →
      (pollJobStatusRun cb (pre.map Except.ok ++ Except.ok s :: rest)).1
          = PollOutcome.rejected e ∧
      (pollJobStatusRun cb (pre.map Except.ok ++ Except.ok s :: rest)).2.2
          = pre.length + 1)
    ∧ (s.status ≠ StatusTag.completed → s.status ≠ StatusTag.failed →
      (pollJobStatusRun cb (pre.map Except.ok ++ [Except.ok s])).1
          = PollOutcome.exhausted) := by
  refine ⟨fun hc => ?_, fun e hf he hne => ?_, fun hnc hnf => ?_⟩
  · rw [pollRun_prepend_nonterminal cb pre _ hpre]
    refine ⟨by simp [pollJobStatusRun, hc], ?_⟩
    simp only [pollJobStatusRun, hc, if_pos]
    omega
  · rw [pollRun_prepend_nonterminal cb pre _ hpre]
    refine ⟨by simp [pollJobStatusRun, hf, jsOrStr, he, hne], ?_⟩
    simp [pollJobStatusRun, hf, Nat.add_comm]
  · rw [pollRun_prepend_nonterminal cb pre _ hpre]
    simp [pollJobStatusRun, hnc, hnf]

/-- C3 witness: with one non-terminal observation followed by a `completed`
status, the loop resolves with the final status and issues exactly two
reads. -/
theorem c3_poll_terminal_behaviour_witness :
    (pollJobStatusRun true (List.map Except.ok [analyzingStatus]
        ++ Except.ok completedStatus :: ([] : List ReadResult))).1
        = PollOutcome.resolved completedStatus ∧
    (pollJobStatusRun true (List.map Except.ok [analyzingStatus]
        ++ Except.ok completedStatus :: ([] : List ReadResult))).2.2
        = 2 :=
  (c3_poll_terminal_behaviour true [analyzingStatus] [] completedStatus
    (by decide)).1 rfl

/-- C4: a transport/read failure at any point of the polling loop rejects
the loop with exactly that failure and stops all polling: whatever reads
would have followed, the read count stops at the failing read, for every
failure message — no retry and no distinction between kinds of failure. -/
theorem c4_poll_transport_failure (cb : Bool) (pre : List JobStatus)
    (rest : List ReadResult) (e : String)
    (hpre : ∀ u ∈ pre,
      u.status ≠ StatusTag.completed ∧ u.status ≠ StatusTag.failed) :
    (pollJobStatusRun cb (pre.map Except.ok ++ Except.error e :: rest)).1
        = PollOutcome.rejected e ∧
    (pollJobStatusRun cb (pre.map Except.ok ++ Except.error e :: rest)).2.2
        = pre.length + 1 := by
  rw [pollRun_prepend_nonterminal cb pre _ hpre]
  exact ⟨rfl, Nat.add_comm 1 pre.length⟩

/-- C4 witness: a failing read after one non-terminal observation rejects
the loop with that failure after exactly two reads. -/
theorem c4_poll_transport_failure_witness :
    (pollJobStatusRun true (List.map Except.ok [analyzingStatus]
        ++ Except.error "Failed to get job status"
            :: ([] : List ReadResult))).1
        = PollOutcome.rejected "Failed to get job status" ∧
    (pollJobStatusRun true (List.map Except.ok [analyzingStatus]
        ++ Except.error "Failed to get job status"
            :: ([] : List ReadResult))).2.2
        = 2 :=
  c4_poll_transport_failure true [analyzingStatus] []
    "Failed to get job status" (by decide)

/-- C5: with a progress callback supplied, the polling loop passes every
observed status to the callback, in observation order and including the
terminal observation — also when consecutive observations are equal, since
the prefix may repeat a status. -/
theorem c5_progress_callback_every_observation (pre : List JobStatus)
    (rest : List ReadResult) (s : JobStatus)
    (hpre : ∀ u ∈ pre,
      u.status ≠ StatusTag.completed ∧ u.status ≠ StatusTag.failed)
    (hterm : s.status = StatusTag.completed ∨ s.status = StatusTag.failed) :
    (pollJobStatusRun true (pre.map Except.ok ++ Except.ok s :: rest)).2.1
        = pre ++ [s] := by
  rw [pollRun_prepend_nonterminal true pre _ hpre]
  rcases hterm with h | h <;> simp [pollJobStatusRun, h]

/-- C5 witness: two identical non-terminal observations followed by a
`failed` status give a callback trace of all three statuses, the repeated
one twice and the terminal one included. -/
theorem c5_progress_callback_every_observation_witness :
    (pollJobStatusRun true
        (List.map Except.ok [analyzingStatus, analyzingStatus]
          ++ Except.ok failedStatus :: ([] : List ReadResult))).2.1
        = [analyzingStatus, analyzingStatus] ++ [failedStatus] :=
  c5_progress_callback_every_observation [analyzingStatus, analyzingStatus]
    [] failedStatus (by decide) (Or.inr rfl)

/-- C6: the client-side validation of UploadSection accepts an 11 MiB PDF —
`handleFileInput`/`handleDrop` check only PDF-ness, never the 10 MB ceiling
the adjacent UI text advertises, so an oversized document proceeds to
upload and job creation instead of being rejected with a validation
error. -/
theorem c6_oversized_pdf_passes_validation :
    acceptsFile oversizedPdf = true ∧ maxUploadBytes < oversizedPdf.size := by
  exact ⟨by decide, by decide⟩

/-- C7: when the caller does not specify a polling interval,
`pollJobStatus` uses its default of 2000 ms, and each status read starts
exactly that long after the previous read finished, for every sequence of
read latencies. -/
theorem c7_default_interval_2000ms :
    defaultIntervalMs = 2000 ∧
    ∀ (t : Nat) (ls : List Nat),
      List.Chain' (fun a b => b.1 = a.2 + defaultIntervalMs)
        (readWindows defaultIntervalMs t ls) :=
  ⟨rfl, readWindows_chain_eq defaultIntervalMs⟩

/-- C8: calling `uploadResume` without a background-selection value sends
the submission with `background_video = "subway_surfer"`, which is one of
the five background choices the UploadSection selector offers. -/
theorem c8_default_background_subway_surfer :
    (∀ f : FileInfo,
      (uploadForm f none).background_video = "subway_surfer") ∧
    "subway_surfer" ∈ backgroundChoices :=
  ⟨fun _ => rfl, by decide⟩

/-- C9: `getVideoUrl` is a pure function of the base URL and the job id —
for every environment value and every job id string (completed or not,
known or not) it returns the concatenation of the API base URL, the fixed
`/api/video/` segment and the id; with the default base URL this is
`http://localhost:8000/api/video/` followed by the id. -/
theorem c9_getVideoUrl_pure_concat :
    (∀ (envUrl : Option String) (jobId : String),
      getVideoUrl envUrl jobId = apiBaseUrl envUrl ++ "/api/video/" ++ jobId)
    ∧ (∀ jobId : String,
      getVideoUrl none jobId = "http://localhost:8000/api/video/" ++ jobId) :=
  ⟨fun _ _ => rfl, fun _ => rfl⟩

/-- C10: a successful backgrounds-listing response whose body lacks the
`backgrounds` field makes `getAvailableBackgrounds` return the empty list,
not an error and not an undefined value. -/
theorem c10_missing_backgrounds_field_empty_list :
    getAvailableBackgrounds true { backgrounds := none }
      = Except.ok ([] : List String) :=
  rfl
